import Mathlib

/-!
Verification of the multi-source job scraper (plugins/job_scraper.py,
plugins/scrapers/base_scraper.py, plugins/csv_exporter.py,
plugins/sns_notifier.py, config/config.py).

Text is modelled as `List Char`.  The regular-expression patterns of
`extract_years_of_experience` are embedded as hand-written matchers that
follow Python `re.search` semantics for these particular patterns:
leftmost match wins, and for these patterns greedy matching never needs
backtracking (every greedy sub-pattern consumes characters that no later
sub-pattern could accept).  The `\d` and `\s` classes are modelled by
their ASCII subsets, which is exact on all inputs considered here.
-/

/-- ASCII lower-casing, the effect of Python `str.lower()` on ASCII text.
Non-ASCII letters also lower-case to letters and never to digits, so the
digit content of a string is unchanged either way. -/
def pyLower (c : Char) : Char :=
  match c with
  | 'A' => 'a' | 'B' => 'b' | 'C' => 'c' | 'D' => 'd' | 'E' => 'e'
  | 'F' => 'f' | 'G' => 'g' | 'H' => 'h' | 'I' => 'i' | 'J' => 'j'
  | 'K' => 'k' | 'L' => 'l' | 'M' => 'm' | 'N' => 'n' | 'O' => 'o'
  | 'P' => 'p' | 'Q' => 'q' | 'R' => 'r' | 'S' => 's' | 'T' => 't'
  | 'U' => 'u' | 'V' => 'v' | 'W' => 'w' | 'X' => 'x' | 'Y' => 'y'
  | 'Z' => 'z'
  | other => other

/-- The `\d` character class (ASCII decimal digit). -/
def isDigitC (c : Char) : Bool :=
  decide ('0' ≤ c) && decide (c ≤ '9')

/-- The `\s` character class (ASCII whitespace). -/
def isSpaceC (c : Char) : Bool :=
  c = ' ' || c = Char.ofNat 9 || c = Char.ofNat 10 || c = Char.ofNat 13 ||
  c = Char.ofNat 11 || c = Char.ofNat 12

/-- The literal character class `[-â€“to]` of the first pattern in the
source (the file holds a doubly-encoded en-dash, so the class consists of
the six characters hyphen, `â`, `€`, `“`, `t`, `o`). -/
def isDashClass (c : Char) : Bool :=
  c = '-' || c = 'â' || c = '€' || c = '“' || c = 't' || c = 'o'

/-- Does `needle` occur at the head of the second list? -/
def startsWithL : List Char → List Char → Bool
  | [], _ => true
  | _ :: _, [] => false
  | a :: l1, b :: l2 => a = b && startsWithL l1 l2

/-- Python substring test `needle in hay` (not word-boundary aware). -/
def containsL (needle : List Char) : List Char → Bool
  | [] => startsWithL needle []
  | c :: rest => startsWithL needle (c :: rest) || containsL needle rest

/-- Split a leading run of digits off a character list. -/
def spanDigits : List Char → List Char × List Char
  | [] => ([], [])
  | c :: cs =>
    if isDigitC c then
      let r := spanDigits cs
      (c :: r.1, r.2)
    else ([], c :: cs)

/-- Numeric value of a digit string, as Python `int` on a `\d+` capture. -/
def digitsToNat (ds : List Char) : Nat :=
  ds.foldl (fun a c => a * 10 + (c.toNat - 48)) 0

/-- Greedy `(\d+)`: the captured value and the remaining characters. -/
def takeDigits (cs : List Char) : Option (Nat × List Char) :=
  let r := spanDigits cs
  if r.1.isEmpty then none else some (digitsToNat r.1, r.2)

/-- Greedy `\s*`. -/
def dropSpaces : List Char → List Char
  | [] => []
  | c :: rest => if isSpaceC c then dropSpaces rest else c :: rest

/-- Greedy tail of a `class+` match. -/
def dropClassMany (p : Char → Bool) : List Char → List Char
  | [] => []
  | c :: rest => if p c then dropClassMany p rest else c :: rest

/-- Greedy `class+`: fails unless at least one class character is present. -/
def dropClass1 (p : Char → Bool) (cs : List Char) : Option (List Char) :=
  match cs with
  | [] => none
  | c :: rest => if p c then some (dropClassMany p rest) else none

/-- Match a literal string, returning the rest of the input. -/
def matchLit : List Char → List Char → Option (List Char)
  | [], cs => some cs
  | _ :: _, [] => none
  | l :: ls, c :: cs => if c = l then matchLit ls cs else none

/-- Greedy optional single character, `(?:x)?`. -/
def dropChar1 (ch : Char) (cs : List Char) : List Char :=
  match cs with
  | [] => []
  | c :: rest => if c = ch then rest else c :: rest

/-- Greedy optional literal, `(?:lit)?`. -/
def dropLitOpt (l : List Char) (cs : List Char) : List Char :=
  match matchLit l cs with
  | some rest => rest
  | none => cs

/-- Pattern 1 anchored at the current position:
`(\d+)\s*[-â€“to]+\s*(\d+)\s*(?:\+)?\s*years?\s*(?:of)?\s*(?:experience|exp)?`.
Everything after `year` is optional and so never decides the match. -/
def p1At (cs : List Char) : Option (Nat × Nat) := do
  let (n, cs) ← takeDigits cs
  let cs := dropSpaces cs
  let cs ← dropClass1 isDashClass cs
  let cs := dropSpaces cs
  let (m, cs) ← takeDigits cs
  let cs := dropSpaces cs
  let cs := dropChar1 '+' cs
  let cs := dropSpaces cs
  let _ ← matchLit ("year".toList) cs
  pure (n, m)

/-- Pattern 2 anchored: `(\d+)\s*\+\s*years?\s*(?:of)?\s*(?:experience|exp)?`. -/
def p2At (cs : List Char) : Option Nat := do
  let (n, cs) ← takeDigits cs
  let cs := dropSpaces cs
  match cs with
  | [] => none
  | c :: rest =>
    if c = '+' then do
      let rest := dropSpaces rest
      let _ ← matchLit ("year".toList) rest
      pure n
    else none

/-- Pattern 3 anchored: `(\d+)\s*years?\s*(?:of)?\s*(?:experience|exp)?`. -/
def p3At (cs : List Char) : Option Nat := do
  let (n, cs) ← takeDigits cs
  let cs := dropSpaces cs
  let _ ← matchLit ("year".toList) cs
  pure n

/-- Pattern 4 anchored: `minimum\s*(?:of)?\s*(\d+)\s*years?`. -/
def p4At (cs : List Char) : Option Nat := do
  let cs ← matchLit ("minimum".toList) cs
  let cs := dropSpaces cs
  let cs := dropLitOpt ("of".toList) cs
  let cs := dropSpaces cs
  let (n, cs) ← takeDigits cs
  let cs := dropSpaces cs
  let _ ← matchLit ("year".toList) cs
  pure n

/-- Pattern 5 anchored: `at\s*least\s*(\d+)\s*years?`. -/
def p5At (cs : List Char) : Option Nat := do
  let cs ← matchLit ("at".toList) cs
  let cs := dropSpaces cs
  let cs ← matchLit ("least".toList) cs
  let cs := dropSpaces cs
  let (n, cs) ← takeDigits cs
  let cs := dropSpaces cs
  let _ ← matchLit ("year".toList) cs
  pure n

/-- `re.search`: try the anchored matcher at every position, leftmost
match first. -/
def searchAux {α : Type} (pAt : List Char → Option α) : List Char → Option α
  | [] => pAt []
  | c :: cs =>
    match pAt (c :: cs) with
    | some r => some r
    | none => searchAux pAt cs

/-- Configuration constant EXPERIENCE_MIN_YEARS (config/config.py). -/
def EXPERIENCE_MIN_YEARS : Nat := 3

/-- Configuration constant EXPERIENCE_MAX_YEARS (config/config.py). -/
def EXPERIENCE_MAX_YEARS : Nat := 7

/-- Configuration constant MAX_PAGES_PER_SOURCE (config/config.py). -/
def MAX_PAGES_PER_SOURCE : Nat := 3

/-- Configuration constant ETL_SKILLS (config/config.py). -/
def ETL_SKILLS : List (List Char) :=
  ["etl".toList, "data pipeline".toList, "airflow".toList, "spark".toList,
   "sql".toList, "python".toList, "data warehouse".toList,
   "snowflake".toList, "databricks".toList, "dbt".toList, "kafka".toList,
   "data modeling".toList, "bigquery".toList, "redshift".toList]

/-- Configuration constant JOB_TITLES (config/config.py). -/
def JOB_TITLES : List (List Char) :=
  ["Data Engineer".toList, "Analytics Engineer".toList,
   "Data Scientist ETL".toList, "Data Scientist SQL".toList,
   "Data Scientist Python".toList]

/-- `extract_years_of_experience` (plugins/job_scraper.py, lines 40–70):
lower-case the text, try the five patterns in order, return the capture
of the first pattern that matches anywhere in the text; the two-capture
pattern yields the pair directly, the single-capture patterns yield
`(n, n + 3)`; `None, None` (here `none`) when nothing matches. -/
def extract_years_of_experience (text : List Char) : Option (Nat × Nat) :=
  if text.isEmpty then none
  else
    let t := text.map pyLower
    match searchAux p1At t with
    | some nm => some nm
    | none =>
      match searchAux p2At t with
      | some n => some (n, n + 3)
      | none =>
        match searchAux p3At t with
        | some n => some (n, n + 3)
        | none =>
          match searchAux p4At t with
          | some n => some (n, n + 3)
          | none =>
            match searchAux p5At t with
            | some n => some (n, n + 3)
            | none => none

/-- `is_experience_in_range` (plugins/job_scraper.py, lines 73–80). -/
def is_experience_in_range (job_description : List Char)
    (min_years max_years : Nat) : Bool :=
  match extract_years_of_experience job_description with
  | none => true
  | some (req_min, req_max) =>
    !(decide (req_max < min_years) || decide (req_min > max_years))

/-- `has_etl_skills` (plugins/job_scraper.py, lines 83–92): count the
configured skills that occur as substrings of the lower-cased text and
require at least 2. -/
def has_etl_skills (text : List Char) : Bool :=
  if text.isEmpty then false
  else
    let t := text.map pyLower
    decide (2 ≤ ETL_SKILLS.countP (fun skill => containsL skill t))

/-- A raw posting as the three adapters shape it before filtering: the
fields relevant downstream.  Every adapter fills all of these keys. -/
structure RawJob where
  job_id : List Char
  title : List Char
  company : List Char
  location : List Char
  job_type : List Char
  remote : Bool
  posted_date : List Char
  apply_link : List Char
  description : List Char
  salary_min : List Char
  salary_max : List Char
  salary_currency : List Char
deriving Repr, DecidableEq

/-- The normalized record produced by `normalize_job_data`. -/
structure NormJob where
  job_id : List Char
  title : List Char
  company : List Char
  location : List Char
  job_type : List Char
  remote : Bool
  posted_date : List Char
  apply_link : List Char
  description_snippet : List Char
  salary_min : List Char
  salary_max : List Char
  salary_currency : List Char
  experience_required : List Char
  source : List Char
  scraped_at : List Char
deriving Repr, DecidableEq

/-- `normalize_job_data` (plugins/job_scraper.py, lines 95–113).  The
wall-clock reading `datetime.now().isoformat()` is passed in as `now`. -/
def normalize_job_data (job : RawJob) (source : List Char) (now : List Char) : NormJob :=
  { job_id := job.job_id
    title := job.title
    company := job.company
    location := job.location
    job_type := job.job_type
    remote := job.remote
    posted_date := job.posted_date
    apply_link := job.apply_link
    description_snippet :=
      if 500 < job.description.length
      then job.description.take 500 ++ ("...".toList)
      else job.description
    salary_min := job.salary_min
    salary_max := job.salary_max
    salary_currency := job.salary_currency
    experience_required :=
      (Nat.repr EXPERIENCE_MIN_YEARS).toList ++ ("-".toList) ++
      (Nat.repr EXPERIENCE_MAX_YEARS).toList ++ (" years".toList)
    source := source
    scraped_at := now }

/-- `fetch_jobs_jsearch` (plugins/job_scraper.py, lines 120–164), with the
HTTP exchange modelled by `resp`: `none` is a transport or parse failure
(the `except` arm), `some jobs` a successful reshape of the payload.  The
result pairs the returned postings with the number of HTTP requests the
call performs. -/
def fetch_jobs_jsearch (rapidapi_key : List Char)
    (resp : Option (List RawJob)) : List RawJob × Nat :=
  if rapidapi_key.isEmpty then ([], 0)
  else
    match resp with
    | none => ([], 1)
    | some jobs => (jobs, 1)

/-- `fetch_jobs_adzuna` (plugins/job_scraper.py, lines 171–216), modelled
like `fetch_jobs_jsearch`; the credential is the two-part app id/key. -/
def fetch_jobs_adzuna (adzuna_app_id adzuna_app_key : List Char)
    (resp : Option (List RawJob)) : List RawJob × Nat :=
  if adzuna_app_id.isEmpty || adzuna_app_key.isEmpty then ([], 0)
  else
    match resp with
    | none => ([], 1)
    | some jobs => (jobs, 1)

/-- The mutable state of `scrape_all_jobs`: the accumulator list and the
`seen_job_ids` set (modelled as a list queried by membership). -/
structure ScrapeState where
  all_jobs : List NormJob
  seen : List (List Char)
deriving Repr, DecidableEq

/-- The per-posting body of the loops in `scrape_all_jobs`
(plugins/job_scraper.py, lines 303–319, 332–346 and 355–366): qualify the
id with the source tag, skip if seen, record as seen, apply the
experience filter, apply the ETL-skill gate when `sciGate` is set (the
JSearch and Adzuna passes set it exactly for titles containing
"scientist"; the RemoteOK pass never sets it), then normalize and append. -/
def processJob (tag source : List Char) (sciGate : Bool) (now : List Char)
    (st : ScrapeState) (job : RawJob) : ScrapeState :=
  let job_id := tag ++ job.job_id
  if job_id ∈ st.seen then st
  else
    let st' : ScrapeState := { all_jobs := st.all_jobs, seen := job_id :: st.seen }
    if !is_experience_in_range job.description EXPERIENCE_MIN_YEARS EXPERIENCE_MAX_YEARS then st'
    else if sciGate && !has_etl_skills job.description then st'
    else
      { all_jobs :=
          st'.all_jobs ++ [normalize_job_data { job with job_id := job_id } source now]
        seen := st'.seen }

/-- The page loop `for page in range(1, MAX_PAGES_PER_SOURCE + 1)`
(plugins/job_scraper.py, lines 298–321): fetch the page, break when it is
empty, otherwise handle its postings and continue.  Returns the final
state together with the list of page numbers that were requested. -/
def scrapePages (fetch : Nat → List RawJob)
    (handle : ScrapeState → List RawJob → ScrapeState) :
    Nat → Nat → ScrapeState → ScrapeState × List Nat
  | 0, _, st => (st, [])
  | fuel + 1, p, st =>
    let jobs := fetch p
    if jobs.isEmpty then (st, [p])
    else
      let r := scrapePages fetch handle fuel (p + 1) (handle st jobs)
      (r.1, p :: r.2)

/-- Whether `"scientist" in job_title.lower()` holds. -/
def titleHasScientist (title : List Char) : Bool :=
  containsL ("scientist".toList) (title.map pyLower)

/-- One title/page double loop of `scrape_all_jobs` for a paginated
source: iterate the configured titles and for each walk the pages. -/
def scrapeSource (fetch : List Char → Nat → List RawJob)
    (tag source : List Char) (now : List Char) (st : ScrapeState) : ScrapeState :=
  JOB_TITLES.foldl
    (fun st title =>
      (scrapePages (fetch title)
        (fun s jobs =>
          jobs.foldl (processJob tag source (titleHasScientist title) now) s)
        MAX_PAGES_PER_SOURCE 1 st).1)
    st

/-- `scrape_all_jobs` (plugins/job_scraper.py, lines 276–375).  The three
providers' responses are inputs: `fetchJ`/`fetchA` give the (already
reshaped, failure-collapsed-to-empty) postings per title and page, and
`remoteJobs` the single RemoteOK fetch.  One `seen_job_ids` set spans all
three passes; the RemoteOK pass applies no ETL-skill gate. -/
def scrapeFinalState (fetchJ fetchA : List Char → Nat → List RawJob)
    (remoteJobs : List RawJob) (now : List Char) : ScrapeState :=
  let st0 : ScrapeState := { all_jobs := [], seen := [] }
  let st1 := scrapeSource fetchJ ("jsearch_".toList)
    ("JSearch (LinkedIn/Indeed)".toList) now st0
  let st2 := scrapeSource fetchA ("adzuna_".toList)
    ("Adzuna (Monster/CareerBuilder)".toList) now st1
  remoteJobs.foldl
    (processJob ("remoteok_".toList) ("RemoteOK (Remote Jobs)".toList) false now) st2

/-- The returned `all_jobs` accumulator of `scrape_all_jobs`. -/
def scrape_all_jobs (fetchJ fetchA : List Char → Nat → List RawJob)
    (remoteJobs : List RawJob) (now : List Char) : List NormJob :=
  (scrapeFinalState fetchJ fetchA remoteJobs now).all_jobs

/-- Configuration constant CSV_FILENAME_PREFIX = "job_listings"
(config/config.py; the name is shortened here). -/
def CSV_FILENAME_STEM : List Char := "job_listings".toList

/-- The fixed column order of the exporter (plugins/csv_exporter.py,
lines 43–59). -/
def csv_columns : List (List Char) :=
  ["job_id".toList, "title".toList, "company".toList, "location".toList,
   "remote".toList, "job_type".toList, "posted_date".toList,
   "apply_link".toList, "salary_min".toList, "salary_max".toList,
   "salary_currency".toList, "experience_required".toList,
   "source".toList, "scraped_at".toList, "description_snippet".toList]

/-- How pandas renders a boolean cell. -/
def pdBoolStr (b : Bool) : List Char :=
  if b then "True".toList else "False".toList

/-- One CSV data row in the fixed column order. -/
def csvRow (j : NormJob) : List (List Char) :=
  [j.job_id, j.title, j.company, j.location, pdBoolStr j.remote, j.job_type,
   j.posted_date, j.apply_link, j.salary_min, j.salary_max,
   j.salary_currency, j.experience_required, j.source, j.scraped_at,
   j.description_snippet]

/-- `export_to_csv` (plugins/csv_exporter.py, lines 25–95).  The
`datetime.now().strftime` timestamp is passed in; the pandas
`DataFrame(...).to_csv` serialization (an external library call) is
modelled as the header row followed by one row per record — for an empty
list the code builds `DataFrame(columns=columns)`, whose CSV is the
header row alone, and for records coming from `normalize_job_data` every
one of the 15 configured columns is present.  The result pairs the file
name with the rows written. -/
def export_to_csv (jobs : List NormJob) (timestamp : List Char) :
    List Char × List (List (List Char)) :=
  let filename := CSV_FILENAME_STEM ++ ("_".toList) ++ timestamp ++ (".csv".toList)
  (filename, csv_columns :: jobs.map csvRow)

/-- Outcome of the external `client.publish` call in `send_notification`:
success with a message id, a botocore `ClientError`, or any other raised
exception. -/
inductive PublishOutcome where
  | ok (messageId : List Char)
  | clientError (code msg : List Char)
  | otherError (msg : List Char)
deriving Repr, DecidableEq

/-- `send_notification` (plugins/sns_notifier.py, lines 41–141): skip
with `False` before any publish when no topic is configured; otherwise
publish once and map success to `True` and either exception arm to
`False`.  The result pairs the returned flag with the number of publish
calls performed. -/
def send_notification (sns_topic_arn : List Char)
    (outcome : PublishOutcome) : Bool × Nat :=
  if sns_topic_arn.isEmpty then (false, 0)
  else
    match outcome with
    | PublishOutcome.ok _ => (true, 1)
    | PublishOutcome.clientError _ _ => (false, 1)
    | PublishOutcome.otherError _ => (false, 1)

/-- A text with "no numeric mention": no ASCII digit occurs in it. -/
def NoDigit (cs : List Char) : Prop := ∀ c ∈ cs, isDigitC c = false

instance (cs : List Char) : Decidable (NoDigit cs) :=
  inferInstanceAs (Decidable (∀ c ∈ cs, isDigitC c = false))

theorem isDigitC_pyLower (c : Char) : isDigitC (pyLower c) = isDigitC c := by
  unfold pyLower
  split <;> rfl

theorem noDigit_map_pyLower {cs : List Char} (h : NoDigit cs) :
    NoDigit (cs.map pyLower) := by
  intro c hc
  rcases List.mem_map.1 hc with ⟨a, ha, rfl⟩
  rw [isDigitC_pyLower]
  exact h a ha

theorem takeDigits_eq_none {cs : List Char} (h : NoDigit cs) :
    takeDigits cs = none := by
  cases cs with
  | nil => rfl
  | cons c rest =>
    have hc : isDigitC c = false := h c (List.mem_cons_self _ _)
    simp [takeDigits, spanDigits, hc]

theorem mem_of_mem_dropSpaces {cs : List Char} {c : Char}
    (h : c ∈ dropSpaces cs) : c ∈ cs := by
  induction cs with
  | nil => simp [dropSpaces] at h
  | cons a rest ih =>
    by_cases ha : isSpaceC a
    · rw [dropSpaces, if_pos ha] at h
      exact List.mem_cons_of_mem _ (ih h)
    · rwa [dropSpaces, if_neg ha] at h

theorem noDigit_dropSpaces {cs : List Char} (h : NoDigit cs) :
    NoDigit (dropSpaces cs) :=
  fun c hc => h c (mem_of_mem_dropSpaces hc)

theorem mem_of_matchLit {c : Char} :
    ∀ {l cs rest : List Char}, matchLit l cs = some rest → c ∈ rest → c ∈ cs := by
  intro l
  induction l with
  | nil =>
    intro cs rest h hc
    simp only [matchLit, Option.some.injEq] at h
    exact h ▸ hc
  | cons x xs ih =>
    intro cs rest h hc
    cases cs with
    | nil => simp [matchLit] at h
    | cons y ys =>
      by_cases hxy : y = x
      · rw [matchLit, if_pos hxy] at h
        exact List.mem_cons_of_mem _ (ih h hc)
      · rw [matchLit, if_neg hxy] at h
        exact absurd h (by simp)

theorem mem_of_dropClassMany {p : Char → Bool} {cs : List Char} {c : Char}
    (h : c ∈ dropClassMany p cs) : c ∈ cs := by
  induction cs with
  | nil => simp [dropClassMany] at h
  | cons a rest ih =>
    by_cases ha : p a
    · rw [dropClassMany, if_pos ha] at h
      exact List.mem_cons_of_mem _ (ih h)
    · rwa [dropClassMany, if_neg ha] at h

theorem mem_of_dropClass1 {p : Char → Bool} {cs rest : List Char}
    (h : dropClass1 p cs = some rest) {c : Char} (hc : c ∈ rest) : c ∈ cs := by
  cases cs with
  | nil => simp [dropClass1] at h
  | cons a more =>
    by_cases ha : p a
    · rw [dropClass1, if_pos ha] at h
      simp only [Option.some.injEq] at h
      exact List.mem_cons_of_mem _ (mem_of_dropClassMany (h ▸ hc))
    · rw [dropClass1, if_neg ha] at h
      exact absurd h (by simp)

theorem mem_of_dropChar1 {ch : Char} {cs : List Char} {c : Char}
    (h : c ∈ dropChar1 ch cs) : c ∈ cs := by
  cases cs with
  | nil => simp [dropChar1] at h
  | cons a more =>
    by_cases ha : a = ch
    · rw [dropChar1, if_pos ha] at h
      exact List.mem_cons_of_mem _ h
    · rwa [dropChar1, if_neg ha] at h

theorem mem_of_dropLitOpt {l cs : List Char} {c : Char}
    (h : c ∈ dropLitOpt l cs) : c ∈ cs := by
  unfold dropLitOpt at h
  cases hm : matchLit l cs with
  | none => rw [hm] at h; exact h
  | some rest => rw [hm] at h; exact mem_of_matchLit hm h

theorem p1At_eq_none {cs : List Char} (h : NoDigit cs) : p1At cs = none := by
  unfold p1At
  rw [takeDigits_eq_none h]
  rfl

theorem p2At_eq_none {cs : List Char} (h : NoDigit cs) : p2At cs = none := by
  unfold p2At
  rw [takeDigits_eq_none h]
  rfl

theorem p3At_eq_none {cs : List Char} (h : NoDigit cs) : p3At cs = none := by
  unfold p3At
  rw [takeDigits_eq_none h]
  rfl

theorem p4At_eq_none {cs : List Char} (h : NoDigit cs) : p4At cs = none := by
  unfold p4At
  cases hm : matchLit ("minimum".toList) cs with
  | none => rfl
  | some cs1 =>
    have h1 : NoDigit cs1 := fun c hc => h c (mem_of_matchLit hm hc)
    have h4 : NoDigit (dropSpaces (dropLitOpt ("of".toList) (dropSpaces cs1))) :=
      noDigit_dropSpaces fun c hc =>
        noDigit_dropSpaces h1 c (mem_of_dropLitOpt hc)
    simp only [Option.bind_eq_bind, Option.some_bind]
    rw [takeDigits_eq_none h4]
    rfl

theorem p5At_eq_none {cs : List Char} (h : NoDigit cs) : p5At cs = none := by
  unfold p5At
  cases hm : matchLit ("at".toList) cs with
  | none => rfl
  | some cs1 =>
    simp only [Option.bind_eq_bind, Option.some_bind]
    have h1 : NoDigit cs1 := fun c hc => h c (mem_of_matchLit hm hc)
    cases hm2 : matchLit ("least".toList) (dropSpaces cs1) with
    | none => rfl
    | some cs2 =>
      simp only [Option.bind_eq_bind, Option.some_bind]
      have h2 : NoDigit cs2 := fun c hc =>
        noDigit_dropSpaces h1 c (mem_of_matchLit hm2 hc)
      rw [takeDigits_eq_none (noDigit_dropSpaces h2)]
      rfl

theorem searchAux_eq_none {α : Type} {pAt : List Char → Option α}
    (hp : ∀ cs, NoDigit cs → pAt cs = none) :
    ∀ {cs : List Char}, NoDigit cs → searchAux pAt cs = none := by
  intro cs
  induction cs with
  | nil => intro h; simpa [searchAux] using hp [] h
  | cons c rest ih =>
    intro h
    have h1 : pAt (c :: rest) = none := hp _ h
    have h2 : NoDigit rest := fun x hx => h x (List.mem_cons_of_mem _ hx)
    simp [searchAux, h1, ih h2]

theorem extract_eq_none_of_noDigit {text : List Char} (h : NoDigit text) :
    extract_years_of_experience text = none := by
  unfold extract_years_of_experience
  by_cases he : text.isEmpty
  · simp [he]
  · have hm : NoDigit (text.map pyLower) := noDigit_map_pyLower h
    simp [he, searchAux_eq_none (fun _ hc => p1At_eq_none hc) hm,
      searchAux_eq_none (fun _ hc => p2At_eq_none hc) hm,
      searchAux_eq_none (fun _ hc => p3At_eq_none hc) hm,
      searchAux_eq_none (fun _ hc => p4At_eq_none hc) hm,
      searchAux_eq_none (fun _ hc => p5At_eq_none hc) hm]

/-- Invariant of the scraping loops: the accumulated records have
pairwise distinct ids and every accumulated id has been recorded in
`seen_job_ids`. -/
def GoodState (st : ScrapeState) : Prop :=
  (st.all_jobs.map NormJob.job_id).Nodup ∧
  ∀ j ∈ st.all_jobs, j.job_id ∈ st.seen

theorem processJob_good {tag source : List Char} {g : Bool} {now : List Char}
    {st : ScrapeState} (job : RawJob) (h : GoodState st) :
    GoodState (processJob tag source g now st job) := by
  have hkeep : GoodState
      { all_jobs := st.all_jobs, seen := (tag ++ job.job_id) :: st.seen } :=
    ⟨h.1, fun j hj => List.mem_cons_of_mem _ (h.2 j hj)⟩
  unfold processJob
  by_cases hmem : (tag ++ job.job_id) ∈ st.seen
  · rw [if_pos hmem]; exact h
  · rw [if_neg hmem]
    split
    · exact hkeep
    · split
      · exact hkeep
      · constructor
        · rw [List.map_append]
          refine List.Nodup.append h.1 (List.nodup_singleton _) ?_
          intro x hx hx2
          simp only [List.map_cons, List.map_nil, List.mem_singleton] at hx2
          have hx2' : x = tag ++ job.job_id := hx2
          subst hx2'
          rcases List.mem_map.1 hx with ⟨j, hj, hjx⟩
          exact hmem (hjx ▸ h.2 j hj)
        · intro j hj
          rcases List.mem_append.1 hj with hj | hj
          · exact List.mem_cons_of_mem _ (h.2 j hj)
          · simp only [List.mem_singleton] at hj
            subst hj
            exact List.mem_cons_self _ _

theorem foldl_preserve {α β : Type} (P : α → Prop) (f : α → β → α)
    (hf : ∀ a b, P a → P (f a b)) :
    ∀ (l : List β) (a : α), P a → P (List.foldl f a l)
  | [], _, h => h
  | b :: l, a, h => foldl_preserve P f hf l (f a b) (hf a b h)

theorem scrapePages_preserve (P : ScrapeState → Prop)
    (fetch : Nat → List RawJob)
    (handle : ScrapeState → List RawJob → ScrapeState)
    (hh : ∀ st jobs, P st → P (handle st jobs)) :
    ∀ (fuel p : Nat) (st : ScrapeState),
      P st → P (scrapePages fetch handle fuel p st).1
  | 0, _, _, h => h
  | fuel + 1, p, st, h => by
    unfold scrapePages
    by_cases he : (fetch p).isEmpty
    · rw [if_pos he]; exact h
    · rw [if_neg he]
      exact scrapePages_preserve P fetch handle hh fuel (p + 1)
        (handle st (fetch p)) (hh st (fetch p) h)

theorem scrapeSource_preserve (P : ScrapeState → Prop)
    (hp : ∀ (tag source : List Char) (g : Bool) (now : List Char)
      (st : ScrapeState) (job : RawJob), P st → P (processJob tag source g now st job))
    (fetch : List Char → Nat → List RawJob) (tag source now : List Char)
    (st : ScrapeState) (h : P st) : P (scrapeSource fetch tag source now st) := by
  unfold scrapeSource
  refine foldl_preserve P _ ?_ JOB_TITLES st h
  intro a title ha
  exact scrapePages_preserve P (fetch title) _
    (fun s jobs hs => foldl_preserve P _ (fun s' j hs' => hp _ _ _ _ s' j hs') jobs s hs)
    MAX_PAGES_PER_SOURCE 1 a ha

theorem scrapeFinalState_preserve (P : ScrapeState → Prop)
    (hp : ∀ (tag source : List Char) (g : Bool) (now : List Char)
      (st : ScrapeState) (job : RawJob), P st → P (processJob tag source g now st job))
    (fetchJ fetchA : List Char → Nat → List RawJob)
    (remoteJobs : List RawJob) (now : List Char)
    (h0 : P { all_jobs := [], seen := [] }) :
    P (scrapeFinalState fetchJ fetchA remoteJobs now) := by
  have h1 := scrapeSource_preserve P hp fetchJ ("jsearch_".toList)
    ("JSearch (LinkedIn/Indeed)".toList) now _ h0
  have h2 := scrapeSource_preserve P hp fetchA ("adzuna_".toList)
    ("Adzuna (Monster/CareerBuilder)".toList) now _ h1
  exact foldl_preserve P
    (processJob ("remoteok_".toList) ("RemoteOK (Remote Jobs)".toList) false now)
    (fun s j hs => hp _ _ _ _ s j hs) remoteJobs _ h2

theorem scrapePages_trace (fetch : Nat → List RawJob)
    (handle : ScrapeState → List RawJob → ScrapeState) :
    ∀ (fuel p : Nat) (st : ScrapeState),
      (∃ k, k ≤ fuel ∧ (scrapePages fetch handle fuel p st).2 = List.range' p k) ∧
      ∀ q, q ∈ (scrapePages fetch handle fuel p st).2 → fetch q = [] →
        (q + 1) ∉ (scrapePages fetch handle fuel p st).2 := by
  intro fuel
  induction fuel with
  | zero =>
    intro p st
    refine ⟨⟨0, Nat.le_refl 0, rfl⟩, ?_⟩
    intro q hq
    simp [scrapePages] at hq
  | succ fuel ih =>
    intro p st
    have hdef : scrapePages fetch handle (fuel + 1) p st =
        (if (fetch p).isEmpty then (st, [p])
         else ((scrapePages fetch handle fuel (p + 1) (handle st (fetch p))).1,
               p :: (scrapePages fetch handle fuel (p + 1) (handle st (fetch p))).2)) := rfl
    by_cases he : (fetch p).isEmpty
    · have htr : (scrapePages fetch handle (fuel + 1) p st).2 = [p] := by
        rw [hdef, if_pos he]
      refine ⟨⟨1, Nat.succ_le_succ (Nat.zero_le _), by simp [htr, List.range']⟩, ?_⟩
      intro q hq _
      rw [htr] at hq ⊢
      simp only [List.mem_singleton] at hq ⊢
      omega
    · have hne : fetch p ≠ [] := by
        intro hx
        rw [hx] at he
        exact he rfl
      have htr : (scrapePages fetch handle (fuel + 1) p st).2 =
          p :: (scrapePages fetch handle fuel (p + 1) (handle st (fetch p))).2 := by
        rw [hdef, if_neg he]
      obtain ⟨⟨k, hk, htr'⟩, hb⟩ := ih (p + 1) (handle st (fetch p))
      refine ⟨⟨k + 1, Nat.succ_le_succ hk, by rw [htr, htr', List.range'_succ]⟩, ?_⟩
      intro q hq hfq
      rw [htr] at hq ⊢
      rcases List.mem_cons.1 hq with hq | hq
      · exact absurd (hq ▸ hfq) hne
      · have hq1 : q + 1 ∉ (scrapePages fetch handle fuel (p + 1) (handle st (fetch p))).2 :=
          hb q hq hfq
        have hqge : p + 1 ≤ q := by
          rw [htr'] at hq
          have := List.mem_range'_1.1 hq
          exact this.1
        intro hcon
        rcases List.mem_cons.1 hcon with hcon | hcon
        · omega
        · exact hq1 hcon

/-- Claim C1 (counterexample): the claim quantifies over every text
*containing* the given phrases, but the extractor returns the leftmost
match of the first pattern, so a text that contains "3-7 years" after an
earlier range mention returns that earlier range, not (3, 7). -/
theorem extract_years_not_determined_by_contained_phrase :
    containsL ("3-7 years".toList) ("1-2 years and 3-7 years".toList) = true ∧
    extract_years_of_experience ("1-2 years and 3-7 years".toList) = some (1, 2) ∧
    (some ((1 : Nat), (2 : Nat)) : Option (Nat × Nat)) ≠ some (3, 7) :=
  ⟨by decide, by decide, by decide⟩

/-- Claim C1 (amended): the extractor lower-cases the text and returns
the result of the first matching pattern; on the phrase "3-7 years"
itself it returns (3, 7), on "5+ years" it returns (5, 8), on
"minimum of 4 years" it returns (4, 7), and on every text with no
numeric mention (no digit at all) it returns unconstrained (`none`).
The per-phrase values hold when the phrase is the leftmost match, not
for every text merely containing it. -/
theorem extract_years_examples_and_no_digit :
    extract_years_of_experience ("3-7 years".toList) = some (3, 7) ∧
    extract_years_of_experience ("5+ years".toList) = some (5, 8) ∧
    extract_years_of_experience ("minimum of 4 years".toList) = some (4, 7) ∧
    ∀ text : List Char, NoDigit text → extract_years_of_experience text = none :=
  ⟨by decide, by decide, by decide, fun _ h => extract_eq_none_of_noDigit h⟩

/-- Witness for the amended claim C1 at a concrete digit-free text. -/
theorem extract_years_examples_and_no_digit_witness :
    NoDigit ("senior role, no numeric mention".toList) ∧
    extract_years_of_experience ("senior role, no numeric mention".toList) = none :=
  ⟨by decide, extract_years_examples_and_no_digit.2.2.2 _ (by decide)⟩

/-- Claim C2: `is_experience_in_range` returns true iff the extracted
requirement is unconstrained (default-accept) or the closed intervals
overlap, i.e. NOT (req_max < window.min OR req_min > window.max); with
window (3, 7) a requirement (8, 10) is excluded, a requirement (1, 3) is
included (boundary touch), and an unconstrained requirement is included
for every window. -/
theorem is_experience_in_range_overlap_spec :
    (∀ (desc : List Char) (min_years max_years : Nat),
      is_experience_in_range desc min_years max_years = true ↔
        (extract_years_of_experience desc = none ∨
          ∃ req_min req_max,
            extract_years_of_experience desc = some (req_min, req_max) ∧
            ¬(req_max < min_years ∨ req_min > max_years))) ∧
    (∀ desc : List Char, extract_years_of_experience desc = some (8, 10) →
      is_experience_in_range desc 3 7 = false) ∧
    (∀ desc : List Char, extract_years_of_experience desc = some (1, 3) →
      is_experience_in_range desc 3 7 = true) ∧
    (∀ (desc : List Char) (min_years max_years : Nat),
      extract_years_of_experience desc = none →
      is_experience_in_range desc min_years max_years = true) := by
  refine ⟨?_, ?_, ?_, ?_⟩
  · intro desc min_years max_years
    unfold is_experience_in_range
    cases hx : extract_years_of_experience desc with
    | none => simp
    | some nm =>
      obtain ⟨rmin, rmax⟩ := nm
      change (Bool.not
        (decide (rmax < min_years) || decide (rmin > max_years)) = true) ↔ _
      simp only [not_or]
      constructor
      · intro hb
        simp only [Bool.not_eq_true', Bool.or_eq_false_iff,
          decide_eq_false_iff_not] at hb
        exact Or.inr ⟨rmin, rmax, rfl, hb.1, hb.2⟩
      · rintro (hnone | ⟨a, b, hab, hc1, hc2⟩)
        · exact absurd hnone (by simp)
        · simp only [Option.some.injEq, Prod.mk.injEq] at hab
          obtain ⟨ha, hb⟩ := hab
          subst ha
          subst hb
          simp only [Bool.not_eq_true', Bool.or_eq_false_iff,
            decide_eq_false_iff_not]
          exact ⟨hc1, hc2⟩
  · intro desc h
    unfold is_experience_in_range
    rw [h]
    rfl
  · intro desc h
    unfold is_experience_in_range
    rw [h]
    rfl
  · intro desc min_years max_years h
    unfold is_experience_in_range
    rw [h]

/-- Witness for claim C2 at concrete descriptions. -/
theorem is_experience_in_range_overlap_spec_witness :
    is_experience_in_range ("8-10 years".toList) 3 7 = false ∧
    is_experience_in_range ("1-3 years".toList) 3 7 = true ∧
    is_experience_in_range ("no requirement stated".toList) 3 7 = true :=
  ⟨is_experience_in_range_overlap_spec.2.1 _ (by decide),
   is_experience_in_range_overlap_spec.2.2.1 _ (by decide),
   is_experience_in_range_overlap_spec.2.2.2 _ 3 7 (by decide)⟩

/-- Claim C3: `has_etl_skills` counts case-insensitive substring
occurrences of the configured keywords (not word-boundary aware) and
returns true iff at least 2 occur; a text with exactly 2 keywords is
included at the default threshold, a text with 1 keyword is excluded. -/
theorem has_etl_skills_threshold_spec :
    (∀ text : List Char,
      has_etl_skills text = true ↔
        2 ≤ ETL_SKILLS.countP (fun skill => containsL skill (text.map pyLower))) ∧
    has_etl_skills ("sql and python".toList) = true ∧
    ETL_SKILLS.countP
      (fun skill => containsL skill (("sql and python".toList).map pyLower)) = 2 ∧
    has_etl_skills ("just sql".toList) = false ∧
    ETL_SKILLS.countP
      (fun skill => containsL skill (("just sql".toList).map pyLower)) = 1 := by
  refine ⟨?_, by decide, by decide, by decide, by decide⟩
  intro text
  cases text with
  | nil => decide
  | cons c rest =>
    unfold has_etl_skills
    simp

/-- Claim C4: the source-qualified ids of the records in the final
output of `scrape_all_jobs` are pairwise distinct, for every choice of
provider responses. -/
theorem scrape_all_jobs_ids_nodup (fetchJ fetchA : List Char → Nat → List RawJob)
    (remoteJobs : List RawJob) (now : List Char) :
    ((scrape_all_jobs fetchJ fetchA remoteJobs now).map NormJob.job_id).Nodup :=
  (scrapeFinalState_preserve GoodState
    (fun _ _ _ _ _ job hst => processJob_good job hst)
    fetchJ fetchA remoteJobs now ⟨by simp, by simp⟩).1

/-- Claim C5: every paginated pass requests pages in increasing order
from page 1, requests at most MAX_PAGES_PER_SOURCE pages, and never
requests a further page after a page that returned no results. -/
theorem scrapePages_trace_spec (fetch : Nat → List RawJob)
    (handle : ScrapeState → List RawJob → ScrapeState) (st : ScrapeState) :
    (∃ k, k ≤ MAX_PAGES_PER_SOURCE ∧
      (scrapePages fetch handle MAX_PAGES_PER_SOURCE 1 st).2 = List.range' 1 k) ∧
    ∀ p, p ∈ (scrapePages fetch handle MAX_PAGES_PER_SOURCE 1 st).2 →
      fetch p = [] →
      (p + 1) ∉ (scrapePages fetch handle MAX_PAGES_PER_SOURCE 1 st).2 :=
  scrapePages_trace fetch handle MAX_PAGES_PER_SOURCE 1 st

/-- Witness for claim C5: with a provider whose first page is already
empty, exactly page 1 is requested and page 2 is not. -/
theorem scrapePages_trace_spec_witness :
    (scrapePages (fun _ => ([] : List RawJob)) (fun st _ => st)
      MAX_PAGES_PER_SOURCE 1 { all_jobs := [], seen := [] }).2 = [1] ∧
    (2 : Nat) ∉ (scrapePages (fun _ => ([] : List RawJob)) (fun st _ => st)
      MAX_PAGES_PER_SOURCE 1 { all_jobs := [], seen := [] }).2 :=
  ⟨rfl,
   (scrapePages_trace_spec (fun _ => ([] : List RawJob)) (fun st _ => st)
     { all_jobs := [], seen := [] }).2 1 (by decide) rfl⟩

/-- Claim C6: with the JSearch API key absent the JSearch fetch returns
empty and performs no request, and with either part of the Adzuna
credential absent the Adzuna fetch returns empty and performs no
request; both are total functions (no exception escapes). -/
theorem fetch_missing_credentials_noop :
    (∀ resp : Option (List RawJob), fetch_jobs_jsearch [] resp = ([], 0)) ∧
    ∀ (app_id app_key : List Char) (resp : Option (List RawJob)),
      app_id = [] ∨ app_key = [] →
      fetch_jobs_adzuna app_id app_key resp = ([], 0) := by
  constructor
  · intro resp
    rfl
  · intro app_id app_key resp h
    unfold fetch_jobs_adzuna
    rcases h with h | h <;> subst h <;> simp

/-- Witness for claim C6 at concrete credentials and responses. -/
theorem fetch_missing_credentials_noop_witness :
    fetch_jobs_jsearch [] none = ([], 0) ∧
    fetch_jobs_adzuna [] ("secret".toList) none = ([], 0) :=
  ⟨fetch_missing_credentials_noop.1 _,
   fetch_missing_credentials_noop.2 _ _ _ (Or.inl rfl)⟩

/-- Claim C7: exporting an empty job list produces exactly the header
row in the fixed column order and zero data rows, and the file name is
the fixed stem followed by the timestamp and the ".csv" extension. -/
theorem export_to_csv_empty_header_only (timestamp : List Char) :
    (export_to_csv [] timestamp).2 =
      [["job_id".toList, "title".toList, "company".toList, "location".toList,
        "remote".toList, "job_type".toList, "posted_date".toList,
        "apply_link".toList, "salary_min".toList, "salary_max".toList,
        "salary_currency".toList, "experience_required".toList,
        "source".toList, "scraped_at".toList, "description_snippet".toList]] ∧
    (export_to_csv [] timestamp).1 =
      ("job_listings_".toList) ++ timestamp ++ (".csv".toList) :=
  ⟨rfl, rfl⟩

/-- Claim C8: `send_notification` is total over every publish outcome:
with no topic configured it returns the failure flag with zero publish
calls (silent skip); with a topic, a delivery failure of either
exception class is mapped to the failure flag after exactly one publish
call; every run ends in one of the three flag/count outcomes (no
exception propagates). -/
theorem send_notification_no_raise_spec :
    (∀ outcome : PublishOutcome, send_notification [] outcome = (false, 0)) ∧
    (∀ (arn code msg : List Char), arn ≠ [] →
      send_notification arn (PublishOutcome.clientError code msg) = (false, 1)) ∧
    (∀ (arn msg : List Char), arn ≠ [] →
      send_notification arn (PublishOutcome.otherError msg) = (false, 1)) ∧
    ∀ (arn : List Char) (outcome : PublishOutcome),
      send_notification arn outcome = (true, 1) ∨
      send_notification arn outcome = (false, 1) ∨
      send_notification arn outcome = (false, 0) := by
  refine ⟨fun _ => rfl, ?_, ?_, ?_⟩
  · intro arn code msg h
    cases arn with
    | nil => exact absurd rfl h
    | cons a l => rfl
  · intro arn msg h
    cases arn with
    | nil => exact absurd rfl h
    | cons a l => rfl
  · intro arn outcome
    cases arn with
    | nil => exact Or.inr (Or.inr rfl)
    | cons a l =>
      cases outcome with
      | ok m => exact Or.inl rfl
      | clientError c m => exact Or.inr (Or.inl rfl)
      | otherError m => exact Or.inr (Or.inl rfl)

/-- Witness for claim C8 at concrete topics and outcomes. -/
theorem send_notification_no_raise_spec_witness :
    send_notification [] (PublishOutcome.ok ("mid-1".toList)) = (false, 0) ∧
    send_notification ("arn:aws:sns:x".toList)
      (PublishOutcome.clientError ("AuthorizationError".toList) ("denied".toList))
      = (false, 1) ∧
    send_notification ("arn:aws:sns:x".toList)
      (PublishOutcome.otherError ("boom".toList)) = (false, 1) :=
  ⟨send_notification_no_raise_spec.1 _,
   send_notification_no_raise_spec.2.1 _ _ _ (by decide),
   send_notification_no_raise_spec.2.2.1 _ _ (by decide)⟩

theorem exp_required_eq :
    (Nat.repr EXPERIENCE_MIN_YEARS).toList ++ ("-".toList) ++
      (Nat.repr EXPERIENCE_MAX_YEARS).toList ++ (" years".toList) =
    ("3-7 years".toList) := by decide

theorem processJob_exp_const {tag source : List Char} {g : Bool} {now : List Char}
    {st : ScrapeState} (job : RawJob)
    (h : ∀ j ∈ st.all_jobs, j.experience_required = ("3-7 years".toList)) :
    ∀ j ∈ (processJob tag source g now st job).all_jobs,
      j.experience_required = ("3-7 years".toList) := by
  unfold processJob
  by_cases hmem : (tag ++ job.job_id) ∈ st.seen
  · rw [if_pos hmem]
    exact h
  · rw [if_neg hmem]
    split
    · exact h
    · split
      · exact h
      · intro j hj
        rcases List.mem_append.1 hj with hj | hj
        · exact h j hj
        · simp only [List.mem_singleton] at hj
          subst hj
          exact exp_required_eq

/-- Claim C9: `normalize_job_data` always sets `experience_required` to
the constant string built from the configured window — "3-7 years"
under the default configuration — independently of the posting, and
every record in the final output of `scrape_all_jobs` carries it. -/
theorem normalize_experience_required_constant :
    (∀ (job : RawJob) (source now : List Char),
      (normalize_job_data job source now).experience_required = ("3-7 years".toList)) ∧
    ∀ (fetchJ fetchA : List Char → Nat → List RawJob) (remoteJobs : List RawJob)
      (now : List Char), ∀ r ∈ scrape_all_jobs fetchJ fetchA remoteJobs now,
      r.experience_required = ("3-7 years".toList) := by
  constructor
  · intro job source now
    exact exp_required_eq
  · intro fetchJ fetchA remoteJobs now r hr
    exact scrapeFinalState_preserve
      (fun st => ∀ j ∈ st.all_jobs, j.experience_required = ("3-7 years".toList))
      (fun _ _ _ _ _ job hst => processJob_exp_const job hst)
      fetchJ fetchA remoteJobs now (by simp) r hr

/-- A concrete raw posting used to instantiate the pipeline claims. -/
def egRemoteJob : RawJob :=
  { job_id := "101".toList
    title := "Data Engineer".toList
    company := "Acme".toList
    location := "Remote - Worldwide".toList
    job_type := "Full-time".toList
    remote := true
    posted_date := "2026-10-01".toList
    apply_link := "https://example.com/101".toList
    description := []
    salary_min := "".toList
    salary_max := "".toList
    salary_currency := "USD".toList }

/-- Witness for claim C9: a run whose only posting comes from the
RemoteOK pass yields a record carrying the constant string. -/
theorem normalize_experience_required_constant_witness :
    (normalize_job_data
      { egRemoteJob with job_id := ("remoteok_".toList) ++ egRemoteJob.job_id }
      ("RemoteOK (Remote Jobs)".toList)
      ("2026-10-12T00:00:00".toList)).experience_required = ("3-7 years".toList) :=
  normalize_experience_required_constant.2 (fun _ _ => []) (fun _ _ => [])
    [egRemoteJob] ("2026-10-12T00:00:00".toList) _ (by decide)

/-- Claim C10: an empty (or missing) description passes the experience
filter for every window, fails the skill matcher, and therefore a
posting processed under the data-scientist skill gate with an empty
description is never added to the output. -/
theorem empty_description_filter_behavior :
    (∀ min_years max_years : Nat,
      is_experience_in_range [] min_years max_years = true) ∧
    has_etl_skills [] = false ∧
    ∀ (tag source now : List Char) (st : ScrapeState) (job : RawJob),
      job.description = [] →
      (processJob tag source true now st job).all_jobs = st.all_jobs := by
  refine ⟨fun _ _ => rfl, rfl, ?_⟩
  intro tag source now st job hd
  unfold processJob
  by_cases hmem : (tag ++ job.job_id) ∈ st.seen
  · rw [if_pos hmem]
  · rw [if_neg hmem]
    rw [hd]
    rfl

/-- Witness for claim C10: a concrete empty-description posting under
the skill gate is dropped. -/
theorem empty_description_filter_behavior_witness :
    (processJob ("jsearch_".toList) ("JSearch (LinkedIn/Indeed)".toList) true
      ("2026-10-12T00:00:00".toList) { all_jobs := [], seen := [] }
      egRemoteJob).all_jobs = [] :=
  empty_description_filter_behavior.2.2 _ _ _ _ _ rfl

